import Mathlib

/-
Verification development for the turn-sequence pipeline
(repository KennethJAllen/turn-sequence).

The Python sources are shallowly embedded as executable Lean
definitions: coordinates are rational pairs, Python exceptions are
modelled with the Except monad, and the possibly non-terminating
while loops of the grid sampler are modelled with an explicit fuel
parameter (a run of the loop that exhausts every fuel bound is a run
that never terminates).
-/

/-- Python exception kinds raised by the embedded code. -/
inductive PyErr where
  | valueError
  | zeroDivisionError
  | runtimeError
  deriving DecidableEq

/-- Result-state test: true exactly when an Except value is an error. -/
def isPyError {α : Type} : Except PyErr α → Bool
  | .error _ => true
  | .ok _ => false

/-- Character-list version of "sub is a leading segment of s", used to
implement the Python substring test. -/
def leads_chars : List Char → List Char → Bool
  | [], _ => true
  | _ :: _, [] => false
  | a :: as, b :: bs => a == b && leads_chars as bs

/-- Character-list substring test: sub occurs contiguously in the second list. -/
def has_sub_chars (sub : List Char) : List Char → Bool
  | [] => leads_chars sub []
  | b :: bs => leads_chars sub (b :: bs) || has_sub_chars sub bs

/-- Python's "sub in s" substring test on strings. -/
def str_in (sub s : String) : Bool := has_sub_chars sub.data s.data

/-- Embedding of get_turns_from_maneuvers (src/src/turn_sequence/utils.py,
lines 48-59): emit "L" when the maneuver label contains "LEFT", else "R"
when it contains "RIGHT", else drop the label. -/
def get_turns_from_maneuvers : List String → List String
  | [] => []
  | m :: rest =>
    if str_in "LEFT" m then "L" :: get_turns_from_maneuvers rest
    else if str_in "RIGHT" m then "R" :: get_turns_from_maneuvers rest
    else get_turns_from_maneuvers rest

/-- Embedding of get_double_turns (src/src/turn_sequence/utils.py, lines
61-74): overlapping adjacent pairs turns[i] ++ turns[i+1]. -/
def get_double_turns (turns : List String) : List String :=
  List.zipWith (fun a b => a ++ b) turns turns.tail

/-- Validation-and-count loop of alternating_turn_metric
(src/src/turn_sequence/analysis.py, lines 24-29): reject any token outside
\x7bLL, RR, LR, RL\x7d, count tokens equal to RL or LR. -/
def count_alternating (double_turns : List String) (acc : ℕ) : Except PyErr ℕ :=
  match double_turns with
  | [] => .ok acc
  | t :: rest =>
    if t = "LL" ∨ t = "RR" ∨ t = "LR" ∨ t = "RL" then
      count_alternating rest (if t = "RL" ∨ t = "LR" then acc + 1 else acc)
    else .error .valueError

/-- Embedding of alternating_turn_metric (src/src/turn_sequence/analysis.py,
lines 22-30).  Python raises ZeroDivisionError on the final division when
the token list is empty. -/
def alternating_turn_metric (double_turns : List String) : Except PyErr ℚ :=
  match count_alternating double_turns 0 with
  | .error e => .error e
  | .ok c =>
    if double_turns.length = 0 then .error .zeroDivisionError
    else .ok ((c : ℚ) / (double_turns.length : ℚ))

/-- Validation-and-count loop of alternating_metric (src/src/utils.py,
lines 76-81).  The counting condition of the source reads
"double_turn == 'RL' or double_turn == 'RL'" (the same comparison twice),
which is reproduced verbatim here. -/
def count_alternating_v0 (double_turns : List String) (acc : ℕ) : Except PyErr ℕ :=
  match double_turns with
  | [] => .ok acc
  | t :: rest =>
    if t = "LL" ∨ t = "RR" ∨ t = "LR" ∨ t = "RL" then
      count_alternating_v0 rest (if t = "RL" ∨ t = "RL" then acc + 1 else acc)
    else .error .valueError

/-- Embedding of alternating_metric (src/src/utils.py, lines 74-82). -/
def alternating_metric (double_turns : List String) : Except PyErr ℚ :=
  match count_alternating_v0 double_turns 0 with
  | .error e => .error e
  | .ok c =>
    if double_turns.length = 0 then .error .zeroDivisionError
    else .ok ((c : ℚ) / (double_turns.length : ℚ))

/-- Spec-side classification of one maneuver label, following the spec
wording: a label containing "LEFT" maps to "L", otherwise a label
containing "RIGHT" maps to "R", otherwise the label is dropped. -/
def turn_of_maneuver_spec (m : String) : Option String :=
  if str_in "LEFT" m then some "L" else if str_in "RIGHT" m then some "R" else none

/-- Geometry capability used by the grid sampler: the bounding rectangle
and the point-containment test of a shapely polygon
(place.polygon.bounds and place.polygon.contains in the sources). -/
structure Polygon where
  minx : ℚ
  miny : ℚ
  maxx : ℚ
  maxy : ℚ
  contains : ℚ → ℚ → Bool

/-- Fuel-indexed embedding of the Python while loop
"while x <= hi: ...; x += step".  A none result means the given fuel bound
was exhausted; a loop that returns none for every fuel never terminates. -/
def walk_loop (hi step : ℚ) : ℕ → ℚ → Option (List ℚ)
  | 0, _ => none
  | fuel+1, x =>
    if x ≤ hi then (walk_loop hi step fuel (x + step)).map (fun l => x :: l)
    else some []

/-- Embedding of PlacePoints._generate_grid_points
(src/src/turn_sequence/map_model.py, lines 89-113): dx and dy are the
bounding-box extents divided by the granularity, the nested while loops
raster-scan the box x-major, and a candidate is kept when the polygon
contains it.  Python raises ZeroDivisionError when the granularity is 0.
Since the y loop restarts at miny for every x and is deterministic, it is
walked once and reused; for real bounds minx <= maxx holds, so the x loop
body (and hence the y loop) always runs at least once. -/
def generate_grid_points (p : Polygon) (num : ℤ) (fuel : ℕ) :
    Option (Except PyErr (List (ℚ × ℚ))) :=
  if num = 0 then some (.error .zeroDivisionError) else
  let dx := (p.maxx - p.minx) / (num : ℚ)
  let dy := (p.maxy - p.miny) / (num : ℚ)
  match walk_loop p.maxx dx fuel p.minx, walk_loop p.maxy dy fuel p.miny with
  | some xs, some ys =>
      some (.ok (xs.flatMap (fun x =>
        (ys.filter (fun y => p.contains x y)).map (fun y => (x, y)))))
  | _, _ => none

/-- Concrete polygon capability with bounding box (0,0)-(1,1), used to run
the grid sampler at non-positive granularities. -/
def poly_unit : Polygon := ⟨0, 0, 1, 1, fun _ _ => false⟩

/-- Concrete polygon capability with bounding box (0,0)-(4,4) whose
containment test accepts exactly the points strictly inside the box. -/
def poly_square : Polygon :=
  ⟨0, 0, 4, 4, fun x y => decide (0 < x) && decide (x < 4) && decide (0 < y) && decide (y < 4)⟩

/-- Coordinate pair standing for a shapely Point; = on pairs models shapely
Point equality, which is coordinate equality. -/
abbrev Pt := ℚ × ℚ

/-- Embedding of PlacePoints._snap_grid_points_to_road
(src/src/turn_sequence/map_model.py, lines 115-128): one snap call per grid
point, appending the result (possibly None) in input order; raises
ValueError only when the resulting list is empty. -/
def snap_grid_points_to_road (snap : Pt → Option Pt) (grid_points : List Pt) :
    Except PyErr (List (Option Pt)) :=
  let snapped_points := grid_points.map snap
  if snapped_points.isEmpty then .error .valueError else .ok snapped_points

/-- Embedding of PlacePoints._snap_grid_points_to_road in the draft
revision (src/src/turn_sequence/city_points.py, lines 88-104): a None snap
result is skipped with continue, so only successfully snapped points are
kept. -/
def snap_grid_points_to_road_cp (snap : Pt → Option Pt) (grid_points : List Pt) :
    Except PyErr (List Pt) :=
  let snapped_points := grid_points.filterMap snap
  if snapped_points.isEmpty then .error .valueError else .ok snapped_points

/-- Decidable equality for Except results, used to evaluate the embedded
functions on concrete inputs. -/
instance {e a : Type} [DecidableEq e] [DecidableEq a] : DecidableEq (Except e a) := fun x y =>
  match x, y with
  | .error u, .error v =>
    if h : u = v then .isTrue (by rw [h]) else .isFalse (by intro hc; injection hc; contradiction)
  | .ok u, .ok v =>
    if h : u = v then .isTrue (by rw [h]) else .isFalse (by intro hc; injection hc; contradiction)
  | .error _, .ok _ => .isFalse (by intro hc; exact Except.noConfusion hc)
  | .ok _, .error _ => .isFalse (by intro hc; exact Except.noConfusion hc)

/-- Snap capability finding no road near (0,0) and snapping every other
point to itself. -/
def snap_demo : Pt → Option Pt :=
  fun q => if q = ((0 : ℚ), (0 : ℚ)) then none else some q

/-- Two concrete grid points, the first of which has no nearby road under
snap_demo. -/
def grid_demo : List Pt := [((0 : ℚ), (0 : ℚ)), ((1 : ℚ), (1 : ℚ))]

/-- One row of the directions dataframe built by Directions._to_df
(src/src/turn_sequence/map_model.py, lines 206-246). -/
structure DirectionRow where
  origin_id : ℕ
  destination_id : ℕ
  raw_directions : List String
  lr_directions : List String
  double_directions : List String
  deriving DecidableEq

/-- Route capability boundary: a request either fails (transport error
from response.raise_for_status, or an API error payload detected by
utils.check_for_errors), or returns the route data, with none standing
for a falsy (empty) response and some ms for a response whose extracted
maneuver list is ms. -/
abbrev RouteFn := Pt → Pt → Except PyErr (Option (List String))

/-- Embedding of Directions._get_route_data
(src/src/turn_sequence/map_model.py, lines 181-204): raises ValueError
when origin equals destination, otherwise delegates to the capability. -/
def get_route_data (route : RouteFn) (origin destination : Pt) :
    Except PyErr (Option (List String)) :=
  if origin = destination then .error .valueError else route origin destination

/-- Row built for one (origin, destination) pair
(src/src/turn_sequence/map_model.py, lines 226-234): raw maneuvers, their
left/right reduction, and the double-turn sequence. -/
def make_direction_row (origin_id destination_id : ℕ) (raw : List String) : DirectionRow :=
  { origin_id := origin_id
    destination_id := destination_id
    raw_directions := raw
    lr_directions := get_turns_from_maneuvers raw
    double_directions := get_double_turns (get_turns_from_maneuvers raw) }

/-- Inner destination loop of Directions._to_df
(src/src/turn_sequence/map_model.py, lines 220-234): skip destinations
equal by value to the origin, skip falsy route responses, abort on the
first raised error, and emit one row per remaining pair in order. -/
def direction_rows_for_origin (route : RouteFn) (origin_id : ℕ) (origin : Pt) :
    ℕ → List Pt → Except PyErr (List DirectionRow)
  | _, [] => .ok []
  | destination_id, destination :: rest =>
    if origin = destination then
      direction_rows_for_origin route origin_id origin (destination_id + 1) rest
    else
      match get_route_data route origin destination with
      | .error e => .error e
      | .ok none => direction_rows_for_origin route origin_id origin (destination_id + 1) rest
      | .ok (some raw) =>
        match direction_rows_for_origin route origin_id origin (destination_id + 1) rest with
        | .error e => .error e
        | .ok rows => .ok (make_direction_row origin_id destination_id raw :: rows)

/-- Outer origin loop of Directions._to_df
(src/src/turn_sequence/map_model.py, lines 219-234). -/
def direction_rows_all (route : RouteFn) (points : List Pt) :
    ℕ → List Pt → Except PyErr (List DirectionRow)
  | _, [] => .ok []
  | origin_id, origin :: rest =>
    match direction_rows_for_origin route origin_id origin 0 points with
    | .error e => .error e
    | .ok rows =>
      match direction_rows_all route points (origin_id + 1) rest with
      | .error e => .error e
      | .ok more => .ok (rows ++ more)

/-- Embedding of Directions._to_df (src/src/turn_sequence/map_model.py,
lines 206-246): enumerate the same point list as origins and destinations. -/
def directions_to_df (route : RouteFn) (points : List Pt) :
    Except PyErr (List DirectionRow) :=
  direction_rows_all route points 0 points

/-- Point list the Directions constructor feeds to _to_df
(src/src/turn_sequence/map_model.py, line 173, with choose_random absent):
the snapped points with every None entry removed. -/
def directions_input_points (snapped : List (Option Pt)) : List Pt :=
  snapped.filterMap id

/-- Boolean check that each row's origin and destination ids are positions
of the given point list holding points that are not coordinate-equal. -/
def row_ids_valid (points : List Pt) (rows : List DirectionRow) : Bool :=
  rows.all (fun e =>
    match points[e.origin_id]?, points[e.destination_id]? with
    | some o, some d => decide (o ≠ d)
    | _, _ => false)

/-- Route capability that always returns the same two maneuvers. -/
def route_ok : RouteFn := fun _ _ => .ok (some ["TURN_LEFT", "TURN_RIGHT"])

/-- Route capability failing (as on an API error payload) exactly on the
ordered pair ((0,0),(1,1)). -/
def route_fail : RouteFn := fun o d =>
  if o = ((0 : ℚ), (0 : ℚ)) ∧ d = ((1 : ℚ), (1 : ℚ)) then .error .runtimeError
  else .ok (some ["TURN_LEFT", "TURN_RIGHT"])

/-- Two distinct concrete valid points. -/
def points_demo : List Pt := [((0 : ℚ), (0 : ℚ)), ((1 : ℚ), (1 : ℚ))]

/-- Snapped-point list with a no-road None entry in front of two valid
points. -/
def snapped_demo : List (Option Pt) :=
  [none, some ((1 : ℚ), (1 : ℚ)), some ((2 : ℚ), (2 : ℚ))]

/-- The two direction rows produced by a full pairwise build over two
distinct points under route_ok. -/
def rows_demo : List DirectionRow :=
  [⟨0, 1, ["TURN_LEFT", "TURN_RIGHT"], ["L", "R"], ["LR"]⟩,
   ⟨1, 0, ["TURN_LEFT", "TURN_RIGHT"], ["L", "R"], ["LR"]⟩]

/-- C1: the alternating_metric revision in src/src/utils.py counts only RL
tokens (its condition tests RL twice and LR never), so on
["LR","RL","LL","RR"] it returns 1/4 while the alternating_turn_metric
revision in analysis.py returns the claimed 1/2; on ["LL"] the analysis.py
metric returns 0 as claimed. -/
theorem alternating_metric_bug_eval :
    alternating_metric ["LR", "RL", "LL", "RR"] = .ok (1/4) ∧
    alternating_turn_metric ["LR", "RL", "LL", "RR"] = .ok (1/2) ∧
    alternating_turn_metric ["LL"] = .ok 0 ∧
    ((1 : ℚ)/4) ≠ ((1 : ℚ)/2) := by
  refine ⟨?_, ?_, ?_, by norm_num⟩ <;>
    · simp +decide only [alternating_metric, alternating_turn_metric,
        count_alternating, count_alternating_v0]
      norm_num

lemma count_alternating_error_iff (dts : List String) : ∀ acc : ℕ,
    isPyError (count_alternating dts acc) = true ↔
      ∃ t ∈ dts, ¬(t = "LL" ∨ t = "RR" ∨ t = "LR" ∨ t = "RL") := by
  induction dts with
  | nil => intro acc; simp [count_alternating, isPyError]
  | cons t rest ih =>
    intro acc
    by_cases h : t = "LL" ∨ t = "RR" ∨ t = "LR" ∨ t = "RL"
    · rw [count_alternating, if_pos h, ih]
      simp only [List.mem_cons]
      constructor
      · rintro ⟨u, hu, hbad⟩; exact ⟨u, Or.inr hu, hbad⟩
      · rintro ⟨u, hu | hu, hbad⟩
        · exact absurd h (hu ▸ hbad)
        · exact ⟨u, hu, hbad⟩
    · rw [count_alternating, if_neg h]
      simp only [isPyError, List.mem_cons, true_iff]
      exact ⟨t, Or.inl rfl, h⟩

/-- C7: the analysis.py alternation metric raises exactly when its input is
empty (ZeroDivisionError from the final division) or contains a token
outside \x7bLL, RR, LR, RL\x7d (ValueError from the validation loop); on every
other input it returns a value. -/
theorem alternation_metric_error_iff (double_turns : List String) :
    isPyError (alternating_turn_metric double_turns) = true ↔
      (double_turns = [] ∨
        ∃ t ∈ double_turns, ¬(t = "LL" ∨ t = "RR" ∨ t = "LR" ∨ t = "RL")) := by
  rcases hc : count_alternating double_turns 0 with e | c
  · have hbad : ∃ t ∈ double_turns, ¬(t = "LL" ∨ t = "RR" ∨ t = "LR" ∨ t = "RL") := by
      rw [← count_alternating_error_iff double_turns 0, hc]; rfl
    have hL : isPyError (alternating_turn_metric double_turns) = true := by
      simp only [alternating_turn_metric, hc]; rfl
    exact iff_of_true hL (Or.inr hbad)
  · have hgood : ¬∃ t ∈ double_turns, ¬(t = "LL" ∨ t = "RR" ∨ t = "LR" ∨ t = "RL") := by
      rw [← count_alternating_error_iff double_turns 0, hc]; simp [isPyError]
    rcases double_turns with _ | ⟨t, rest⟩
    · have hL : isPyError (alternating_turn_metric []) = true := by
        simp only [alternating_turn_metric, hc]; rfl
      exact iff_of_true hL (Or.inl rfl)
    · have hL : isPyError (alternating_turn_metric (t :: rest)) = false := by
        simp only [alternating_turn_metric, hc]; rfl
      refine iff_of_false (by simp [hL]) ?_
      rintro (h | hbad)
      · exact List.cons_ne_nil _ _ h
      · exact hgood hbad

lemma get_turns_length_le (ms : List String) :
    (get_turns_from_maneuvers ms).length ≤ ms.length := by
  induction ms with
  | nil => simp [get_turns_from_maneuvers]
  | cons m rest ih =>
    rw [get_turns_from_maneuvers]
    split
    · simpa using ih
    · split
      · simpa using ih
      · exact Nat.le_succ_of_le ih

lemma get_turns_eq_filterMap (ms : List String) :
    get_turns_from_maneuvers ms = ms.filterMap turn_of_maneuver_spec := by
  induction ms with
  | nil => simp [get_turns_from_maneuvers]
  | cons m rest ih =>
    rw [get_turns_from_maneuvers, List.filterMap_cons, turn_of_maneuver_spec]
    split
    · simpa using ih
    · split
      · simpa using ih
      · simpa using ih

/-- C8: turn reduction emits "L" for labels containing "LEFT", "R" for
labels containing "RIGHT", drops all other labels in place while keeping
order (it equals filterMap of the per-label classification), never exceeds
the input length, and reduces ["TURN_LEFT","STRAIGHT","TURN_RIGHT"] to
["L","R"]. -/
theorem turn_reduction_classification :
    get_turns_from_maneuvers ["TURN_LEFT", "STRAIGHT", "TURN_RIGHT"] = ["L", "R"] ∧
    (∀ ms : List String, (get_turns_from_maneuvers ms).length ≤ ms.length) ∧
    (∀ ms : List String, get_turns_from_maneuvers ms = ms.filterMap turn_of_maneuver_spec) :=
  ⟨by decide, get_turns_length_le, get_turns_eq_filterMap⟩

/-- C10: a maneuver label containing both "LEFT" and "RIGHT" is classified
as a left turn, because the LEFT test is checked first. -/
theorem left_takes_precedence (m : String) (ms : List String)
    (hL : str_in "LEFT" m = true) (_hR : str_in "RIGHT" m = true) :
    get_turns_from_maneuvers (m :: ms) = "L" :: get_turns_from_maneuvers ms := by
  rw [get_turns_from_maneuvers, if_pos hL]

/-- Witness for C10 at the concrete label "TURN_LEFT_RIGHT". -/
theorem left_takes_precedence_witness :
    str_in "LEFT" "TURN_LEFT_RIGHT" = true ∧
    str_in "RIGHT" "TURN_LEFT_RIGHT" = true ∧
    get_turns_from_maneuvers ["TURN_LEFT_RIGHT"] = "L" :: get_turns_from_maneuvers [] :=
  ⟨by decide, by decide,
    left_takes_precedence "TURN_LEFT_RIGHT" [] (by decide) (by decide)⟩

lemma walk_loop_none_of_nonpos (hi step : ℚ) (hstep : step ≤ 0) :
    ∀ (fuel : ℕ) (x : ℚ), x ≤ hi → walk_loop hi step fuel x = none := by
  intro fuel
  induction fuel with
  | zero => intro x _; rfl
  | succ m ih =>
    intro x hx
    have hrec := ih (x + step) (by linarith)
    simp [walk_loop, hx, hrec]

lemma walk_loop_stop (hi step : ℚ) (fuel : ℕ) (x : ℚ) (l : List ℚ)
    (hx : ¬x ≤ hi) (hw : walk_loop hi step fuel x = some l) : l = [] := by
  rcases fuel with _ | m
  · exact absurd hw (by simp [walk_loop])
  · simp [walk_loop, hx] at hw
    exact hw

lemma walk_loop_char (hi step : ℚ) (hstep : 0 < step) :
    ∀ (n fuel : ℕ) (x : ℚ) (l : List ℚ), hi = x + n * step →
      walk_loop hi step fuel x = some l →
      l = (List.range (n + 1)).map (fun k : ℕ => x + (k : ℚ) * step) := by
  intro n
  induction n with
  | zero =>
    intro fuel x l hhi hw
    have hx : x ≤ hi := by rw [hhi]; push_cast; linarith
    rcases fuel with _ | m
    · exact absurd hw (by simp [walk_loop])
    · rw [walk_loop, if_pos hx] at hw
      rcases hrec : walk_loop hi step m (x + step) with _ | l2
      · rw [hrec] at hw; exact absurd hw (by simp)
      · rw [hrec] at hw
        simp only [Option.map_some', Option.some.injEq] at hw
        have hstop : l2 = [] := by
          refine walk_loop_stop hi step m (x + step) l2 ?_ hrec
          rw [hhi]; push_cast; intro hc; linarith
        subst hstop
        rw [← hw]
        simp [List.range_succ]
  | succ k ih =>
    intro fuel x l hhi hw
    have hpos : (0 : ℚ) < ((k : ℚ) + 1) * step := by positivity
    have hx : x ≤ hi := by rw [hhi]; push_cast; linarith
    rcases fuel with _ | m
    · exact absurd hw (by simp [walk_loop])
    · rw [walk_loop, if_pos hx] at hw
      rcases hrec : walk_loop hi step m (x + step) with _ | l2
      · rw [hrec] at hw; exact absurd hw (by simp)
      · rw [hrec] at hw
        simp only [Option.map_some', Option.some.injEq] at hw
        have hhi2 : hi = (x + step) + k * step := by rw [hhi]; push_cast; ring
        have hl2 := ih m (x + step) l2 hhi2 hrec
        subst hl2
        have hr : (List.range (k + 1 + 1)).map (fun j : ℕ => x + (j : ℚ) * step) =
            x :: (List.range (k + 1)).map (fun j : ℕ => (x + step) + (j : ℚ) * step) := by
          rw [List.range_succ_eq_map, List.map_cons, List.map_map]
          congr 1
          · simp
          · refine List.map_congr_left ?_
            intro a _
            simp only [Function.comp_apply]
            push_cast
            ring
        rw [← hw, hr]

lemma filter_on_grid_le (n : ℕ) (g : ℕ → ℚ) (pred : ℚ → Bool)
    (h0 : pred (g 0) = false) :
    (((List.range (n + 1)).map g).filter pred).length ≤ n := by
  rw [List.filter_map, List.length_map, List.range_succ_eq_map,
    List.filter_cons_of_neg (by simpa using h0)]
  calc (List.filter (pred ∘ g) ((List.range n).map Nat.succ)).length
      ≤ ((List.range n).map Nat.succ).length := List.length_filter_le _ _
    _ = n := by simp

lemma flatMap_length_le {α β : Type} (l : List α) (f : α → List β) (c : ℕ)
    (h : ∀ a ∈ l, (f a).length ≤ c) : (l.flatMap f).length ≤ l.length * c := by
  induction l with
  | nil => simp
  | cons a t ih =>
    rw [List.flatMap_cons, List.length_append]
    have h1 := h a (List.mem_cons_self a t)
    have h2 := ih (fun b hb => h b (List.mem_cons_of_mem a hb))
    calc (f a).length + (t.flatMap f).length ≤ c + t.length * c := Nat.add_le_add h1 h2
      _ = (t.length + 1) * c := by ring
      _ = (a :: t).length * c := by rw [List.length_cons]

/-- C2: whenever a run of the grid sampler terminates successfully (for a
positive granularity n, a bounding box of positive extent, and a
containment test that only accepts interior points of the box, as
shapely's strict contains does), every returned point passes the polygon
containment test and at most n * n points are returned. -/
theorem grid_points_contained_and_bounded
    (p : Polygon) (n fuel : ℕ) (pts : List (ℚ × ℚ))
    (hn : 0 < n)
    (hx : p.minx < p.maxx) (hy : p.miny < p.maxy)
    (hstrict : ∀ a b : ℚ, p.contains a b = true →
      p.minx < a ∧ a < p.maxx ∧ p.miny < b ∧ b < p.maxy)
    (hok : generate_grid_points p (n : ℤ) fuel = some (.ok pts)) :
    pts.all (fun q => p.contains q.1 q.2) = true ∧ pts.length ≤ n * n := by
  have hnQ : ((n : ℚ)) ≠ 0 := by exact_mod_cast hn.ne'
  have hnz : ¬((n : ℤ) = 0) := by exact_mod_cast hn.ne'
  simp only [generate_grid_points] at hok
  rw [if_neg hnz] at hok
  have hcast : (((n : ℤ) : ℚ)) = (n : ℚ) := by push_cast; ring
  rw [hcast] at hok
  set dx := (p.maxx - p.minx) / (n : ℚ) with hdxdef
  set dy := (p.maxy - p.miny) / (n : ℚ) with hdydef
  have hdx : 0 < dx := div_pos (by linarith) (by exact_mod_cast hn)
  have hdy : 0 < dy := div_pos (by linarith) (by exact_mod_cast hn)
  have hmx : p.maxx = p.minx + (n : ℚ) * dx := by
    rw [hdxdef]; field_simp
  have hmy : p.maxy = p.miny + (n : ℚ) * dy := by
    rw [hdydef]; field_simp
  rcases hwx : walk_loop p.maxx dx fuel p.minx with _ | xs <;>
    rcases hwy : walk_loop p.maxy dy fuel p.miny with _ | ys <;>
    rw [hwx, hwy] at hok
  · exact Option.noConfusion hok
  · exact Option.noConfusion hok
  · exact Option.noConfusion hok
  have hpts : xs.flatMap (fun x =>
      (ys.filter (fun y => p.contains x y)).map (fun y => (x, y))) = pts :=
    Except.ok.inj (Option.some.inj hok)
  have hxs := walk_loop_char p.maxx dx hdx n fuel p.minx xs hmx hwx
  have hys := walk_loop_char p.maxy dy hdy n fuel p.miny ys hmy hwy
  subst hxs
  subst hys
  have hminy0 : p.miny + ((0 : ℕ) : ℚ) * dy = p.miny := by push_cast; ring
  have hminx0 : p.minx + ((0 : ℕ) : ℚ) * dx = p.minx := by push_cast; ring
  have hinner : ∀ x : ℚ,
      ((((List.range (n + 1)).map (fun k : ℕ => p.miny + (k : ℚ) * dy)).filter
        (fun y => p.contains x y)).map (fun y => (x, y))).length ≤ n := by
    intro x
    rw [List.length_map]
    refine filter_on_grid_le n _ _ ?_
    cases hb : p.contains x (p.miny + ((0 : ℕ) : ℚ) * dy)
    · rfl
    · exfalso
      have := (hstrict _ _ hb).2.2.1
      rw [hminy0] at this
      exact lt_irrefl _ this
  constructor
  · rw [List.all_eq_true]
    intro q hq
    rw [← hpts] at hq
    simp only [List.mem_flatMap, List.mem_map, List.mem_filter] at hq
    obtain ⟨x, hxmem, y, ⟨hymem, hcontains⟩, rfl⟩ := hq
    exact hcontains
  · rw [← hpts]
    have hdecomp : ((List.range (n + 1)).map (fun k : ℕ => p.minx + (k : ℚ) * dx)) =
        (p.minx + ((0 : ℕ) : ℚ) * dx) ::
          ((List.range n).map ((fun k : ℕ => p.minx + (k : ℚ) * dx) ∘ Nat.succ)) := by
      rw [List.range_succ_eq_map, List.map_cons, List.map_map]
    rw [hdecomp, List.flatMap_cons, List.length_append]
    have hhead : ((((List.range (n + 1)).map (fun k : ℕ => p.miny + (k : ℚ) * dy)).filter
        (fun y => p.contains (p.minx + ((0 : ℕ) : ℚ) * dx) y)).map
        (fun y => (p.minx + ((0 : ℕ) : ℚ) * dx, y))).length = 0 := by
      rw [List.length_map, List.length_eq_zero]
      rw [List.filter_eq_nil_iff]
      intro y _
      cases hb : p.contains (p.minx + ((0 : ℕ) : ℚ) * dx) y
      · simp
      · exfalso
        have := (hstrict _ _ hb).1
        rw [hminx0] at this
        exact lt_irrefl _ this
    have htail := flatMap_length_le
      ((List.range n).map ((fun k : ℕ => p.minx + (k : ℚ) * dx) ∘ Nat.succ))
      (fun x => (((List.range (n + 1)).map (fun k : ℕ => p.miny + (k : ℚ) * dy)).filter
        (fun y => p.contains x y)).map (fun y => (x, y)))
      n (fun a _ => hinner a)
    have hrl : ((List.range n).map ((fun k : ℕ => p.minx + (k : ℚ) * dx) ∘ Nat.succ)).length = n := by
      simp
    rw [hrl] at htail
    omega

/-- C3: at granularity -1 the grid sampler never terminates on a polygon
with bounding box (0,0)-(1,1): the steps dx and dy are negative, so the
while loops never exit and no error is ever raised (the run returns none
for every fuel bound).  At granularity 0 Python raises ZeroDivisionError
when computing dx, which is the only granularity <= 0 that fails fast. -/
theorem negative_granularity_diverges :
    (∀ fuel : ℕ, generate_grid_points poly_unit (-1) fuel = none) ∧
    (∀ fuel : ℕ, generate_grid_points poly_unit 0 fuel = some (.error .zeroDivisionError)) := by
  constructor
  · intro fuel
    simp only [generate_grid_points, poly_unit]
    rw [if_neg (by norm_num : ¬(-1 : ℤ) = 0)]
    have e1 : ((1 : ℚ) - 0) / ((-1 : ℤ) : ℚ) = -1 := by push_cast; norm_num
    rw [e1]
    have hw := walk_loop_none_of_nonpos 1 (-1) (by norm_num) fuel 0 (by norm_num)
    rw [hw]
  · intro fuel
    rfl

/-- Witness for C2: granularity 2 on poly_square terminates with the single
point (2,2), which passes containment, and 1 ≤ 2 * 2. -/
theorem grid_points_contained_and_bounded_witness :
    [((2 : ℚ), (2 : ℚ))].all (fun q => poly_square.contains q.1 q.2) = true ∧
    [((2 : ℚ), (2 : ℚ))].length ≤ 2 * 2 :=
  grid_points_contained_and_bounded poly_square 2 6 [((2 : ℚ), (2 : ℚ))]
    (by norm_num) (by norm_num [poly_square]) (by norm_num [poly_square])
    (fun a b h => by
      simp only [poly_square, Bool.and_eq_true, decide_eq_true_eq] at h ⊢
      exact ⟨h.1.1.1, h.1.1.2, h.1.2, h.2⟩)
    (by norm_num [generate_grid_points, poly_square, walk_loop])

/-- C4 (amended): the map_model.py road validator is position-preserving:
on success its output has the same length as the input and is exactly the
pointwise image of the snap capability, so the result at index i is the
snap result of grid point i, with no-road markers kept in place. -/
theorem snap_preserves_length_and_positions
    (snap : Pt → Option Pt) (grid_points : List Pt) (l : List (Option Pt))
    (hok : snap_grid_points_to_road snap grid_points = .ok l) :
    l.length = grid_points.length ∧ l = grid_points.map snap := by
  simp only [snap_grid_points_to_road] at hok
  by_cases he : ((grid_points.map snap).isEmpty = true)
  · rw [if_pos he] at hok
    exact Except.noConfusion hok
  · rw [if_neg he] at hok
    have hl := Except.ok.inj hok
    refine ⟨?_, hl.symm⟩
    rw [← hl, List.length_map]

/-- Witness for C4 at snap_demo and grid_demo: the no-road marker stays at
index 0 and the output length is 2. -/
theorem snap_preserves_length_and_positions_witness :
    [(none : Option Pt), some ((1 : ℚ), (1 : ℚ))].length = grid_demo.length ∧
    [(none : Option Pt), some ((1 : ℚ), (1 : ℚ))] = grid_demo.map snap_demo :=
  snap_preserves_length_and_positions snap_demo grid_demo
    [(none : Option Pt), some ((1 : ℚ), (1 : ℚ))] (by decide)

/-- Counterexample for C4 as stated: the city_points.py draft validator
returns one snap result for the two grid points of grid_demo, so output
length and input indices do not correspond. -/
theorem snap_cp_drops_points :
    snap_grid_points_to_road_cp snap_demo grid_demo = .ok [((1 : ℚ), (1 : ℚ))] ∧
    [((1 : ℚ), (1 : ℚ))].length ≠ grid_demo.length := by
  constructor
  · decide
  · decide

lemma rows_for_origin_length (route : RouteFn) (oid : ℕ) (o : Pt) :
    ∀ (ds : List Pt) (did : ℕ) (rows : List DirectionRow),
      direction_rows_for_origin route oid o did ds = .ok rows →
      rows.length + ds.count o ≤ ds.length := by
  intro ds
  induction ds with
  | nil =>
    intro did rows h
    simp only [direction_rows_for_origin, Except.ok.injEq] at h
    simp [← h]
  | cons d rest ih =>
    intro did rows h
    rw [direction_rows_for_origin] at h
    split at h
    · rename_i heq
      have hrec := ih (did + 1) rows h
      rw [heq, List.count_cons_self, List.length_cons]
      rw [heq] at hrec
      omega
    · rename_i hne
      split at h
      · exact Except.noConfusion h
      · rename_i heq2
        have hrec := ih (did + 1) rows h
        rw [List.count_cons_of_ne hne, List.length_cons]
        omega
      · rename_i raw heq2
        split at h
        · exact Except.noConfusion h
        · rename_i rows2 heq3
          have hrows := Except.ok.inj h
          have hrec := ih (did + 1) rows2 heq3
          rw [← hrows, List.count_cons_of_ne hne, List.length_cons, List.length_cons]
          omega

lemma rows_for_origin_ids (route : RouteFn) (oid : ℕ) (o : Pt) :
    ∀ (ds : List Pt) (did : ℕ) (rows : List DirectionRow),
      direction_rows_for_origin route oid o did ds = .ok rows →
      ∀ e ∈ rows, e.origin_id = oid ∧
        ∃ j : ℕ, e.destination_id = did + j ∧ ∃ d, ds[j]? = some d ∧ o ≠ d := by
  intro ds
  induction ds with
  | nil =>
    intro did rows h e he
    simp only [direction_rows_for_origin, Except.ok.injEq] at h
    rw [← h] at he
    exact absurd he (List.not_mem_nil e)
  | cons d0 rest ih =>
    intro did rows h
    rw [direction_rows_for_origin] at h
    split at h
    · rename_i heq
      intro e he
      obtain ⟨h1, j, h2, d2, h3, h4⟩ := ih (did + 1) rows h e he
      exact ⟨h1, j + 1, by omega, d2, by simpa using h3, h4⟩
    · rename_i hne
      split at h
      · intro e he; exact Except.noConfusion h
      · rename_i heq2
        intro e he
        obtain ⟨h1, j, h2, d2, h3, h4⟩ := ih (did + 1) rows h e he
        exact ⟨h1, j + 1, by omega, d2, by simpa using h3, h4⟩
      · rename_i raw heq2
        split at h
        · intro e he; exact Except.noConfusion h
        · rename_i rows2 heq3
          have hrows := Except.ok.inj h
          intro e he
          rw [← hrows] at he
          rcases List.mem_cons.mp he with hhead | htail
          · subst hhead
            exact ⟨rfl, 0, by simp [make_direction_row], d0, by simp, hne⟩
          · obtain ⟨h1, j, h2, d2, h3, h4⟩ := ih (did + 1) rows2 heq3 e htail
            exact ⟨h1, j + 1, by omega, d2, by simpa using h3, h4⟩

lemma rows_for_origin_no_error (route : RouteFn) (oid : ℕ) (o : Pt) :
    ∀ (ds : List Pt) (did : ℕ) (rows : List DirectionRow),
      direction_rows_for_origin route oid o did ds = .ok rows →
      ∀ d ∈ ds, o ≠ d → ∃ rd, route o d = .ok rd := by
  intro ds
  induction ds with
  | nil =>
    intro did rows h d hd
    exact absurd hd (List.not_mem_nil d)
  | cons d0 rest ih =>
    intro did rows h
    rw [direction_rows_for_origin] at h
    split at h
    · rename_i heq
      intro d hd hne
      rcases List.mem_cons.mp hd with rfl | htail
      · exact absurd heq hne
      · exact ih (did + 1) rows h d htail hne
    · rename_i hne0
      split at h
      · intro d hd hne; exact Except.noConfusion h
      · rename_i heq2
        intro d hd hne
        rcases List.mem_cons.mp hd with rfl | htail
        · rw [get_route_data, if_neg hne0] at heq2
          exact ⟨none, heq2⟩
        · exact ih (did + 1) rows h d htail hne
      · rename_i raw heq2
        split at h
        · intro d hd hne; exact Except.noConfusion h
        · rename_i rows2 heq3
          intro d hd hne
          rcases List.mem_cons.mp hd with rfl | htail
          · rw [get_route_data, if_neg hne0] at heq2
            exact ⟨some raw, heq2⟩
          · exact ih (did + 1) rows2 heq3 d htail hne

lemma rows_all_length (route : RouteFn) (pts : List Pt) :
    ∀ (os : List Pt) (oid : ℕ) (rows : List DirectionRow),
      direction_rows_all route pts oid os = .ok rows →
      (∀ o ∈ os, o ∈ pts) →
      rows.length ≤ os.length * (pts.length - 1) := by
  intro os
  induction os with
  | nil =>
    intro oid rows h _
    simp only [direction_rows_all, Except.ok.injEq] at h
    simp [← h]
  | cons o rest ih =>
    intro oid rows h hsub
    rw [direction_rows_all] at h
    split at h
    · exact Except.noConfusion h
    · rename_i rows1 heq1
      split at h
      · exact Except.noConfusion h
      · rename_i rows2 heq2
        have hrows := Except.ok.inj h
        have hb1 := rows_for_origin_length route oid o pts 0 rows1 heq1
        have hc : 0 < pts.count o := List.count_pos_iff.mpr (hsub o (List.mem_cons_self o rest))
        have hb2 := ih (oid + 1) rows2 heq2 (fun x hx => hsub x (List.mem_cons_of_mem o hx))
        rw [← hrows, List.length_append, List.length_cons]
        have h1 : rows1.length ≤ pts.length - 1 := by omega
        calc rows1.length + rows2.length
            ≤ (pts.length - 1) + rest.length * (pts.length - 1) := Nat.add_le_add h1 hb2
          _ = (rest.length + 1) * (pts.length - 1) := by ring

lemma rows_all_ids (route : RouteFn) (pts : List Pt) :
    ∀ (os : List Pt) (oid : ℕ) (rows : List DirectionRow),
      direction_rows_all route pts oid os = .ok rows →
      (∀ k : ℕ, os[k]? = pts[oid + k]?) →
      ∀ e ∈ rows, ∃ o, pts[e.origin_id]? = some o ∧
        ∃ d, pts[e.destination_id]? = some d ∧ o ≠ d := by
  intro os
  induction os with
  | nil =>
    intro oid rows h _ e he
    simp only [direction_rows_all, Except.ok.injEq] at h
    rw [← h] at he
    exact absurd he (List.not_mem_nil e)
  | cons o rest ih =>
    intro oid rows h hidx
    rw [direction_rows_all] at h
    split at h
    · intro e he; exact Except.noConfusion h
    · rename_i rows1 heq1
      split at h
      · intro e he; exact Except.noConfusion h
      · rename_i rows2 heq2
        have hrows := Except.ok.inj h
        intro e he
        rw [← hrows] at he
        rcases List.mem_append.mp he with h1 | h2
        · obtain ⟨ho1, j, hdid, d, hj, hne⟩ :=
            rows_for_origin_ids route oid o pts 0 rows1 heq1 e h1
          have ho : pts[oid]? = some o := by
            have h0 := hidx 0
            simp only [List.getElem?_cons_zero, Nat.add_zero] at h0
            exact h0.symm
          refine ⟨o, by rw [ho1]; exact ho, d, ?_, hne⟩
          rw [hdid]
          simpa using hj
        · have hidx2 : ∀ k : ℕ, rest[k]? = pts[(oid + 1) + k]? := by
            intro k
            have h3 := hidx (k + 1)
            rw [show oid + (k + 1) = oid + 1 + k from by omega] at h3
            simpa using h3
          exact ih (oid + 1) rows2 heq2 hidx2 e h2

lemma rows_all_no_error (route : RouteFn) (pts : List Pt) :
    ∀ (os : List Pt) (oid : ℕ) (rows : List DirectionRow),
      direction_rows_all route pts oid os = .ok rows →
      ∀ o ∈ os, ∀ d ∈ pts, o ≠ d → ∃ rd, route o d = .ok rd := by
  intro os
  induction os with
  | nil =>
    intro oid rows h o ho
    exact absurd ho (List.not_mem_nil o)
  | cons o0 rest ih =>
    intro oid rows h o ho d hd hne
    rw [direction_rows_all] at h
    split at h
    · exact Except.noConfusion h
    · rename_i rows1 heq1
      split at h
      · exact Except.noConfusion h
      · rename_i rows2 heq2
        rcases List.mem_cons.mp ho with rfl | htail
        · exact rows_for_origin_no_error route oid o pts 0 rows1 heq1 d hd hne
        · exact ih (oid + 1) rows2 heq2 o htail d hd hne

lemma to_df_row_ids (route : RouteFn) (points : List Pt) (rows : List DirectionRow)
    (hok : directions_to_df route points = .ok rows) :
    row_ids_valid points rows = true := by
  rw [row_ids_valid, List.all_eq_true]
  intro e he
  obtain ⟨o, ho, d, hd, hne⟩ :=
    rows_all_ids route points points 0 rows hok (fun k => by simp) e he
  rw [ho, hd]
  simpa using hne

lemma filterMap_id_length_lt (snapped : List (Option Pt))
    (hnone : (none : Option Pt) ∈ snapped) :
    (snapped.filterMap id).length < snapped.length := by
  induction snapped with
  | nil => exact absurd hnone (List.not_mem_nil none)
  | cons a rest ih =>
    rcases a with _ | v
    · have hle := List.length_filterMap_le (id : Option Pt → Option Pt) rest
      have hs : (none :: rest).filterMap (id : Option Pt → Option Pt) = rest.filterMap id := by
        simp
      rw [hs, List.length_cons]
      omega
    · have hmem : (none : Option Pt) ∈ rest := by
        rcases List.mem_cons.mp hnone with h | h
        · exact absurd h (by simp)
        · exact h
      have hlt := ih hmem
      have hs : (some v :: rest).filterMap (id : Option Pt → Option Pt) =
          v :: rest.filterMap id := by simp
      rw [hs, List.length_cons, List.length_cons]
      omega

/-- C5: a successful route-matrix build over a list of n valid points
(n at least 2) produces at most n * (n - 1) rows, and every row's origin
and destination ids are positions of the input list holding points that
are not coordinate-equal: any ordered pair of coordinate-equal points,
also at two distinct indices, is skipped by the value test. -/
theorem route_matrix_skips_equal_pairs
    (route : RouteFn) (points : List Pt) (rows : List DirectionRow)
    (_hlen2 : 2 ≤ points.length)
    (hok : directions_to_df route points = .ok rows) :
    rows.length ≤ points.length * (points.length - 1) ∧
    row_ids_valid points rows = true :=
  ⟨rows_all_length route points points 0 rows hok (fun _ ho => ho),
   to_df_row_ids route points rows hok⟩

/-- Witness for C5: two distinct points under an always-succeeding route
capability yield exactly the two rows of rows_demo. -/
theorem route_matrix_skips_equal_pairs_witness :
    rows_demo.length ≤ points_demo.length * (points_demo.length - 1) ∧
    row_ids_valid points_demo rows_demo = true :=
  route_matrix_skips_equal_pairs route_ok points_demo rows_demo (by decide) (by decide)

/-- C6: when the route capability reports an error for any ordered pair of
distinct points of the build (transport failure or API error payload), the
whole matrix build returns an error: no partial row list is produced.
Skipping is reserved for coordinate-equal pairs and falsy route responses. -/
theorem route_failure_aborts_matrix
    (route : RouteFn) (points : List Pt) (o d : Pt) (err : PyErr)
    (ho : o ∈ points) (hd : d ∈ points) (hne : o ≠ d)
    (herr : route o d = .error err) :
    isPyError (directions_to_df route points) = true := by
  rcases hok : directions_to_df route points with e | rows
  · rfl
  · exfalso
    obtain ⟨rd, hrd⟩ := rows_all_no_error route points points 0 rows hok o ho d hd hne
    rw [herr] at hrd
    exact Except.noConfusion hrd

/-- Witness for C6: route_fail errors on the pair ((0,0),(1,1)) of
points_demo, and the whole build returns an error. -/
theorem route_failure_aborts_matrix_witness :
    isPyError (directions_to_df route_fail points_demo) = true :=
  route_failure_aborts_matrix route_fail points_demo ((0 : ℚ), (0 : ℚ)) ((1 : ℚ), (1 : ℚ))
    PyErr.runtimeError (by decide) (by decide) (by decide) (by decide)

/-- C9: the ids stored in the route rows are positions of the filtered
point list the Directions constructor builds (snapped points with None
entries removed), and when a None entry is present that filtered list is
strictly shorter than the snapped-point table, so the stored ids are not
the index-stable grid-point ids of the point table. -/
theorem directions_ids_index_filtered_list
    (route : RouteFn) (snapped : List (Option Pt)) (rows : List DirectionRow)
    (hnone : (none : Option Pt) ∈ snapped)
    (hok : directions_to_df route (directions_input_points snapped) = .ok rows) :
    row_ids_valid (directions_input_points snapped) rows = true ∧
    (directions_input_points snapped).length < snapped.length :=
  ⟨to_df_row_ids route (directions_input_points snapped) rows hok,
   filterMap_id_length_lt snapped hnone⟩

/-- Witness for C9: with the None entry first in snapped_demo, the rows
reference filtered positions 0 and 1, while the grid-point ids of the two
snapped points in the point table are 1 and 2. -/
theorem directions_ids_index_filtered_list_witness :
    row_ids_valid (directions_input_points snapped_demo) rows_demo = true ∧
    (directions_input_points snapped_demo).length < snapped_demo.length :=
  directions_ids_index_filtered_list route_ok snapped_demo rows_demo (by decide) (by decide)
